import Mathlib

/-!
# Verification of the manimo teleoperation agent

Shallow embedding of `manimo/teleoperation/teleop_agent.py`.

The Python module wraps quaternions as scipy `Rotation` objects.  We embed a
quaternion as four real components in scipy's `[x, y, z, w]` order.  scipy's
`R.from_quat(t) * R.from_quat(s)` composes rotations (apply `s` first, then
`t`); its quaternion is the Hamilton product `t ⊗ s`.  `R.inv()` of a unit
quaternion is the quaternion conjugate.  `as_euler('xyz')` is the extrinsic
x-y-z Euler decomposition: the rotation matrix factors as
`Rz(γ) · Ry(β) · Rx(α)` with euler angles `(α, β, γ)`, recovered via
`β = arcsin(2(wy - xz))`, `α = atan2(2(wx + yz), 1 - 2(x² + y²))`,
`γ = atan2(2(wz + xy), 1 - 2(y² + z²))`, with `atan2` ranging over `(-π, π]`.
Python floats are modelled as real numbers.
-/

namespace Manimo

open Real

/-- A 3-vector (numpy array of three floats). -/
structure Vec3 where
  x : ℝ
  y : ℝ
  z : ℝ

/-- Elementwise vector addition. -/
def Vec3.add (a b : Vec3) : Vec3 := ⟨a.x + b.x, a.y + b.y, a.z + b.z⟩

/-- Elementwise vector subtraction. -/
def Vec3.sub (a b : Vec3) : Vec3 := ⟨a.x - b.x, a.y - b.y, a.z - b.z⟩

/-- Scalar multiplication of a vector (numpy `*=` with a scalar). -/
def Vec3.smul (c : ℝ) (a : Vec3) : Vec3 := ⟨c * a.x, c * a.y, c * a.z⟩

/-- A quaternion in scipy component order `[x, y, z, w]`. -/
structure Quat where
  x : ℝ
  y : ℝ
  z : ℝ
  w : ℝ

/-- Hamilton product `a ⊗ b`: the quaternion of the composed rotation
`R.from_quat(a) * R.from_quat(b)` (apply `b` first, then `a`). -/
def Quat.mul (a b : Quat) : Quat :=
  ⟨a.w * b.x + a.x * b.w + a.y * b.z - a.z * b.y,
   a.w * b.y - a.x * b.z + a.y * b.w + a.z * b.x,
   a.w * b.z + a.x * b.y - a.y * b.x + a.z * b.w,
   a.w * b.w - a.x * b.x - a.y * b.y - a.z * b.z⟩

/-- Quaternion conjugate: the quaternion of `R.inv()` for a unit quaternion. -/
def Quat.conj (q : Quat) : Quat := ⟨-q.x, -q.y, -q.z, q.w⟩

/-- Componentwise negation; `q` and `-q` represent the same rotation. -/
def Quat.neg (q : Quat) : Quat := ⟨-q.x, -q.y, -q.z, -q.w⟩

/-- Squared norm of a quaternion; rotations carry unit quaternions. -/
def Quat.normSq (q : Quat) : ℝ := q.x ^ 2 + q.y ^ 2 + q.z ^ 2 + q.w ^ 2

/-- The identity quaternion (no rotation). -/
def Quat.one : Quat := ⟨0, 0, 0, 1⟩

/-- Two quaternions represent the same rotation exactly when they are equal
up to global sign. -/
def sameRotation (a b : Quat) : Prop := a = b ∨ a = b.neg

/-- Two-argument arctangent with range `(-π, π]`, realised as the complex
argument of `x + y·i`.  This is the `atan2` used by scipy's Euler-angle
extraction (up to scipy's convention `atan2(0, 0) = 0`, shared by `arg`). -/
noncomputable def atan2 (y x : ℝ) : ℝ := Complex.arg (x + y * Complex.I)

/-- `quat_to_euler` of `teleop_agent.py`: scipy
`R.from_quat(quat).as_euler('xyz')`, the extrinsic x-y-z Euler angles
(radians) of the rotation represented by `quat`. -/
noncomputable def quat_to_euler (q : Quat) : ℝ × ℝ × ℝ :=
  (atan2 (2 * (q.w * q.x + q.y * q.z)) (1 - 2 * (q.x ^ 2 + q.y ^ 2)),
   Real.arcsin (2 * (q.w * q.y - q.x * q.z)),
   atan2 (2 * (q.w * q.z + q.x * q.y)) (1 - 2 * (q.y ^ 2 + q.z ^ 2)))

/-- Unit quaternion of a rotation by angle `a` about the x-axis. -/
noncomputable def quatAxisX (a : ℝ) : Quat := ⟨Real.sin (a / 2), 0, 0, Real.cos (a / 2)⟩

/-- Unit quaternion of a rotation by angle `a` about the y-axis. -/
noncomputable def quatAxisY (a : ℝ) : Quat := ⟨0, Real.sin (a / 2), 0, Real.cos (a / 2)⟩

/-- Unit quaternion of a rotation by angle `a` about the z-axis. -/
noncomputable def quatAxisZ (a : ℝ) : Quat := ⟨0, 0, Real.sin (a / 2), Real.cos (a / 2)⟩

/-- `euler_to_quat` of `teleop_agent.py`: scipy
`R.from_euler('xyz', euler).as_quat()`.  Extrinsic x-y-z means rotating about
the fixed x, then y, then z axes, i.e. the composition `Rz(γ) ∘ Ry(β) ∘ Rx(α)`
with quaternion `qz(γ) ⊗ qy(β) ⊗ qx(α)`. -/
noncomputable def euler_to_quat (e : ℝ × ℝ × ℝ) : Quat :=
  Quat.mul (Quat.mul (quatAxisZ e.2.2) (quatAxisY e.2.1)) (quatAxisX e.1)

/-- `quat_diff(target, source)` of `teleop_agent.py`:
`R.from_quat(target) * R.from_quat(source).inv()`, i.e. the Hamilton product
of `target` with the conjugate of the (unit) `source`. -/
def quat_diff (target source : Quat) : Quat := Quat.mul target source.conj

/-- `quat_add(target, source)` of `teleop_agent.py`:
`R.from_quat(target) * R.from_quat(source)`, the Hamilton product
`target ⊗ source` (apply `source` first, then `target`). -/
def quat_add (target source : Quat) : Quat := Quat.mul target source

/-- A pose: position plus orientation quaternion (one of the
`{'pos': ..., 'quat': ...}` dictionaries of `TeleopAgent`). -/
structure Pose where
  pos : Vec3
  quat : Quat

/-- The mutable session state of a `TeleopAgent`: the activation flag
`init_ref` and the captured reference frames.  In the Python constructor the
origins start as `None` and `init_ref` is `True`; since the origins are
always overwritten before first use whenever `init_ref` holds, we carry
plain `Pose` fields whose values are irrelevant while `init_ref = true`. -/
structure AgentState where
  init_ref : Bool
  robot_origin : Pose
  vr_origin : Pose

/-- Configuration read by the constructor from `teleop_config`. -/
structure TeleopConfig where
  use_gripper : Bool
  disable_rot : Bool
  /-- `position_mask`: per axis, the pair (index 0, index 1) of scale
  factors applied to positive resp. non-positive offset components. -/
  position_mask : (ℝ × ℝ) × (ℝ × ℝ) × (ℝ × ℝ)

/-- `self.pos_action_gain = 0.5`. -/
noncomputable def pos_action_gain : ℝ := 1 / 2

/-- `self.rot_action_gain = 0.2`. -/
noncomputable def rot_action_gain : ℝ := 1 / 5

/-- `self.gripper_action_gain = 1`. -/
def gripper_action_gain : ℝ := 1

/-- One axis of the position-mask loop: `pos_action[dim] *= mask[0]` when
`pos_action[dim] > 0`, else `pos_action[dim] *= mask[1]`. -/
noncomputable def maskDim (m : ℝ × ℝ) (a : ℝ) : ℝ :=
  if a > 0 then a * m.1 else a * m.2

/-- The `for dim, mask_per_dim in enumerate(self.position_mask)` loop,
applied to all three axes. -/
noncomputable def applyMask (m : (ℝ × ℝ) × (ℝ × ℝ) × (ℝ × ℝ)) (v : Vec3) : Vec3 :=
  ⟨maskDim m.1 v.x, maskDim m.2.1 v.y, maskDim m.2.2 v.z⟩

/-- The tuple returned by `self.teleop.get_state()` plus the opaque buttons
structure (type parameter `β`). -/
structure ControllerInput (β : Type) where
  control_en : Bool
  grasp_en : Bool
  vr_pos : Vec3
  vr_quat : Quat
  buttons : β

/-- The robot observation fields read from `obs` (`eef_pos`, `eef_rot`). -/
structure RobotObs where
  eef_pos : Vec3
  eef_rot : Quat

/-- The value returned by `TeleopAgent.get_action`:
* `act pos quat grip buttons` models `(np.append(pos_action, quat_action),
  grasp_en, buttons)` — the 7-vector is the concatenation of `pos` and `quat`;
* `noAction buttons` models `(None, None, buttons)` (control disabled);
* `interrupted` models the bare `None` returned from the
  `except KeyboardInterrupt` handler. -/
inductive TeleopResult (β : Type) where
  | act (pos : Vec3) (quat : Quat) (grip : Bool) (buttons : β)
  | noAction (buttons : β)
  | interrupted

/-- The target position of an action result, when there is one. -/
def TeleopResult.armPos {β : Type} : TeleopResult β → Option Vec3
  | .act p _ _ _ => some p
  | _ => none

/-- The target orientation of an action result, when there is one. -/
def TeleopResult.armQuat {β : Type} : TeleopResult β → Option Quat
  | .act _ q _ _ => some q
  | _ => none

/-- `TeleopAgent.get_action(obs, apply_pos_mask)`, as a function of the agent
state and the polled controller input, returning the result together with
the updated state.  The `interrupt` flag models a `KeyboardInterrupt`
delivered inside the `try` block: the handler prints a notice and returns a
bare `None`; the partially-updated state at the moment of interruption is
not modelled (the state is returned unchanged).  No other exception is
caught. -/
noncomputable def get_action {β : Type} (cfg : TeleopConfig) (s : AgentState)
    (inp : ControllerInput β) (obs : RobotObs)
    (apply_pos_mask : Bool) (interrupt : Bool) :
    TeleopResult β × AgentState :=
  if interrupt then (TeleopResult.interrupted, s)
  else if inp.control_en then
    -- Update reference pose
    let s1 := if s.init_ref then
        { init_ref := false,
          robot_origin := ⟨obs.eef_pos, obs.eef_rot⟩,
          vr_origin := ⟨inp.vr_pos, inp.vr_quat⟩ }
      else s
    -- Calculate Positional Action
    let target_pos_offset := Vec3.sub inp.vr_pos s1.vr_origin.pos
    -- Calculate Euler Orientation Action
    let euler_action := quat_to_euler (quat_diff inp.vr_quat s1.vr_origin.quat)
    -- Scale Appropriately
    let pos_action := Vec3.smul pos_action_gain target_pos_offset
    let euler_scaled := (rot_action_gain * euler_action.1,
                         rot_action_gain * euler_action.2.1,
                         rot_action_gain * euler_action.2.2)
    -- Add robot origin
    let quat_action := euler_to_quat euler_scaled
    let quat_final := if cfg.disable_rot then s1.robot_origin.quat
      else quat_add s1.robot_origin.quat quat_action
    -- Option to apply position mask
    let pos_masked := if apply_pos_mask then applyMask cfg.position_mask pos_action
      else pos_action
    let pos_final := Vec3.add pos_masked s1.robot_origin.pos
    (TeleopResult.act pos_final quat_final inp.grasp_en inp.buttons, s1)
  else
    (TeleopResult.noAction inp.buttons, { s with init_ref := true })

/-! ## Quaternion and Euler-angle lemmas -/

/-- The four components of `euler_to_quat` in closed form (half-angle
products). -/
theorem euler_to_quat_eq (α β γ : ℝ) :
    euler_to_quat (α, β, γ) =
      ⟨cos (γ/2) * cos (β/2) * sin (α/2) - sin (γ/2) * sin (β/2) * cos (α/2),
       cos (γ/2) * sin (β/2) * cos (α/2) + sin (γ/2) * cos (β/2) * sin (α/2),
       sin (γ/2) * cos (β/2) * cos (α/2) - cos (γ/2) * sin (β/2) * sin (α/2),
       cos (γ/2) * cos (β/2) * cos (α/2) + sin (γ/2) * sin (β/2) * sin (α/2)⟩ := by
  simp only [euler_to_quat, quatAxisX, quatAxisY, quatAxisZ, Quat.mul, Quat.mk.injEq]
  refine ⟨by ring, by ring, by ring, by ring⟩

/-- `atan2` recovers the angle from a positively scaled cosine/sine pair. -/
theorem atan2_mul_cos_sin {c θ : ℝ} (hc : 0 < c) (hθ1 : -π < θ) (hθ2 : θ ≤ π) :
    atan2 (c * sin θ) (c * cos θ) = θ := by
  unfold atan2
  have h : ((c * cos θ : ℝ) : ℂ) + ((c * sin θ : ℝ) : ℂ) * Complex.I
      = (c : ℂ) * (Complex.cos θ + Complex.sin θ * Complex.I) := by
    push_cast [← Complex.ofReal_cos, ← Complex.ofReal_sin]
    ring
  rw [h]
  exact Complex.arg_mul_cos_add_sin_mul_I hc ⟨hθ1, hθ2⟩

/-- **C7.** Round-trip law for the Euler helpers: converting an Euler triple
within the principal range of the x-y-z decomposition (outer angles in
`(-π, π]`, middle angle strictly inside `(-π/2, π/2)`, which excludes the
gimbal-lock boundary) to a quaternion and back recovers the triple
exactly. -/
theorem quat_euler_round_trip (α β γ : ℝ) (hα1 : -π < α) (hα2 : α ≤ π)
    (hβ1 : -(π/2) < β) (hβ2 : β < π/2) (hγ1 : -π < γ) (hγ2 : γ ≤ π) :
    quat_to_euler (euler_to_quat (α, β, γ)) = (α, β, γ) := by
  have hA := sin_sq_add_cos_sq (α/2)
  have hB := sin_sq_add_cos_sq (β/2)
  have hC := sin_sq_add_cos_sq (γ/2)
  have hcosβ : (0:ℝ) < cos β := cos_pos_of_mem_Ioo ⟨hβ1, hβ2⟩
  have hsinα : sin α = 2 * sin (α/2) * cos (α/2) := by
    rw [← sin_two_mul]; congr 1; ring
  have hsinβ : sin β = 2 * sin (β/2) * cos (β/2) := by
    rw [← sin_two_mul]; congr 1; ring
  have hsinγ : sin γ = 2 * sin (γ/2) * cos (γ/2) := by
    rw [← sin_two_mul]; congr 1; ring
  have hcosα : cos α = cos (α/2) ^ 2 - sin (α/2) ^ 2 := by
    rw [← cos_two_mul']; congr 1; ring
  have hcosβ2 : cos β = cos (β/2) ^ 2 - sin (β/2) ^ 2 := by
    rw [← cos_two_mul']; congr 1; ring
  have hcosγ : cos γ = cos (γ/2) ^ 2 - sin (γ/2) ^ 2 := by
    rw [← cos_two_mul']; congr 1; ring
  rw [euler_to_quat_eq]
  simp only [quat_to_euler, Prod.mk.injEq]
  refine ⟨?_, ?_, ?_⟩
  · have e1 : 2 * ((cos (γ/2) * cos (β/2) * cos (α/2) + sin (γ/2) * sin (β/2) * sin (α/2)) *
          (cos (γ/2) * cos (β/2) * sin (α/2) - sin (γ/2) * sin (β/2) * cos (α/2)) +
        (cos (γ/2) * sin (β/2) * cos (α/2) + sin (γ/2) * cos (β/2) * sin (α/2)) *
          (sin (γ/2) * cos (β/2) * cos (α/2) - cos (γ/2) * sin (β/2) * sin (α/2)))
        = cos β * sin α := by
      rw [hsinα, hcosβ2]
      linear_combination (2 * sin (α/2) * cos (α/2) * (cos (β/2)^2 - sin (β/2)^2)) * hC
    have e2 : 1 - 2 * ((cos (γ/2) * cos (β/2) * sin (α/2) - sin (γ/2) * sin (β/2) * cos (α/2)) ^ 2 +
        (cos (γ/2) * sin (β/2) * cos (α/2) + sin (γ/2) * cos (β/2) * sin (α/2)) ^ 2)
        = cos β * cos α := by
      rw [hcosα, hcosβ2]
      linear_combination (-2 * (sin (α/2)^2 * cos (β/2)^2 + cos (α/2)^2 * sin (β/2)^2)) * hC +
        (-(sin (β/2)^2 + cos (β/2)^2)) * hA + (-1 : ℝ) * hB
    rw [e1, e2]
    exact atan2_mul_cos_sin hcosβ hα1 hα2
  · have e3 : 2 * ((cos (γ/2) * cos (β/2) * cos (α/2) + sin (γ/2) * sin (β/2) * sin (α/2)) *
          (cos (γ/2) * sin (β/2) * cos (α/2) + sin (γ/2) * cos (β/2) * sin (α/2)) -
        (cos (γ/2) * cos (β/2) * sin (α/2) - sin (γ/2) * sin (β/2) * cos (α/2)) *
          (sin (γ/2) * cos (β/2) * cos (α/2) - cos (γ/2) * sin (β/2) * sin (α/2)))
        = sin β := by
      rw [hsinβ]
      linear_combination (2 * sin (β/2) * cos (β/2) * (sin (α/2)^2 + cos (α/2)^2)) * hC +
        (2 * sin (β/2) * cos (β/2)) * hA
    rw [e3]
    exact arcsin_sin (by linarith) (by linarith)
  · have e4 : 2 * ((cos (γ/2) * cos (β/2) * cos (α/2) + sin (γ/2) * sin (β/2) * sin (α/2)) *
          (sin (γ/2) * cos (β/2) * cos (α/2) - cos (γ/2) * sin (β/2) * sin (α/2)) +
        (cos (γ/2) * cos (β/2) * sin (α/2) - sin (γ/2) * sin (β/2) * cos (α/2)) *
          (cos (γ/2) * sin (β/2) * cos (α/2) + sin (γ/2) * cos (β/2) * sin (α/2)))
        = cos β * sin γ := by
      rw [hsinγ, hcosβ2]
      linear_combination (2 * sin (γ/2) * cos (γ/2) * (cos (β/2)^2 - sin (β/2)^2)) * hA
    have e5 : 1 - 2 * ((cos (γ/2) * sin (β/2) * cos (α/2) + sin (γ/2) * cos (β/2) * sin (α/2)) ^ 2 +
        (sin (γ/2) * cos (β/2) * cos (α/2) - cos (γ/2) * sin (β/2) * sin (α/2)) ^ 2)
        = cos β * cos γ := by
      rw [hcosγ, hcosβ2]
      linear_combination (-2 * (sin (γ/2)^2 * cos (β/2)^2 + cos (γ/2)^2 * sin (β/2)^2)) * hA +
        (-(sin (β/2)^2 + cos (β/2)^2)) * hC + (-1 : ℝ) * hB
    rw [e4, e5]
    exact atan2_mul_cos_sin hcosβ hγ1 hγ2

/-- Witness for C7 at the concrete triple `(π/2, π/4, -π/2)`. -/
theorem quat_euler_round_trip_witness :
    (-π < π/2 ∧ π/2 ≤ π ∧ -(π/2) < π/4 ∧ π/4 < π/2 ∧ -π < -(π/2) ∧ -(π/2) ≤ π) ∧
    quat_to_euler (euler_to_quat (π/2, π/4, -(π/2))) = (π/2, π/4, -(π/2)) := by
  have hπ := pi_pos
  refine ⟨⟨by linarith, by linarith, by linarith, by linarith, by linarith, by linarith⟩, ?_⟩
  exact quat_euler_round_trip (π/2) (π/4) (-(π/2)) (by linarith) (by linarith)
    (by linarith) (by linarith) (by linarith) (by linarith)

/-- Multiplying by the identity quaternion on the right changes nothing. -/
theorem Quat.mul_one (q : Quat) : Quat.mul q Quat.one = q := by
  simp [Quat.mul, Quat.one]

/-- Multiplying by the identity quaternion on the left changes nothing. -/
theorem Quat.one_mul (q : Quat) : Quat.mul Quat.one q = q := by
  simp [Quat.mul, Quat.one]

/-- The relative rotation of a unit quaternion with itself is the identity. -/
theorem quat_diff_self (q : Quat) (hq : q.normSq = 1) : quat_diff q q = Quat.one := by
  simp only [Quat.normSq] at hq
  simp only [quat_diff, Quat.mul, Quat.conj, Quat.one, Quat.mk.injEq]
  refine ⟨by ring, by ring, by ring, by linear_combination hq⟩

/-- **C8.** For all unit quaternions `a` and `b`,
`quat_add (quat_diff a b) b` is exactly `a` — i.e. `(a ∘ b⁻¹) ∘ b`
represents the same rotation as `a`. -/
theorem quat_diff_quat_add_cancel (a b : Quat) (ha : a.normSq = 1) (hb : b.normSq = 1) :
    quat_add (quat_diff a b) b = a ∧ sameRotation (quat_add (quat_diff a b) b) a := by
  have h : quat_add (quat_diff a b) b = a := by
    obtain ⟨ax, ay, az, aw⟩ := a
    obtain ⟨bx, bby, bz, bw⟩ := b
    simp only [Quat.normSq] at hb
    simp only [quat_add, quat_diff, Quat.mul, Quat.conj, Quat.mk.injEq]
    refine ⟨by linear_combination ax * hb, by linear_combination ay * hb,
      by linear_combination az * hb, by linear_combination aw * hb⟩
  exact ⟨h, Or.inl h⟩

/-- Witness for C8 at `a = (3/5, 0, 0, 4/5)`, `b = (0, 3/5, 0, 4/5)`. -/
theorem quat_diff_quat_add_cancel_witness :
    (⟨3/5, 0, 0, 4/5⟩ : Quat).normSq = 1 ∧ (⟨0, 3/5, 0, 4/5⟩ : Quat).normSq = 1 ∧
    (quat_add (quat_diff ⟨3/5, 0, 0, 4/5⟩ ⟨0, 3/5, 0, 4/5⟩) ⟨0, 3/5, 0, 4/5⟩
        = (⟨3/5, 0, 0, 4/5⟩ : Quat)
      ∧ sameRotation (quat_add (quat_diff ⟨3/5, 0, 0, 4/5⟩ ⟨0, 3/5, 0, 4/5⟩) ⟨0, 3/5, 0, 4/5⟩)
          ⟨3/5, 0, 0, 4/5⟩) :=
  ⟨by norm_num [Quat.normSq], by norm_num [Quat.normSq],
    quat_diff_quat_add_cancel _ _ (by norm_num [Quat.normSq]) (by norm_num [Quat.normSq])⟩

/-! ## Behaviour of `get_action` -/

/-- **C3.** When the controller reports control disabled, `get_action`
returns `(None, None, buttons)` (buttons passed through), resets the
activation flag `init_ref` — whatever the previous state was — and the next
call with control enabled recaptures both reference frames from the then
current robot observation and controller pose. -/
theorem get_action_disabled {β : Type} (cfg : TeleopConfig) (s : AgentState)
    (g g2 : Bool) (vp vp2 : Vec3) (vq vq2 : Quat) (b b2 : β)
    (obs obs2 : RobotObs) (pm pm2 : Bool) :
    get_action cfg s ⟨false, g, vp, vq, b⟩ obs pm false
      = (TeleopResult.noAction b, { s with init_ref := true })
    ∧ (get_action cfg (get_action cfg s ⟨false, g, vp, vq, b⟩ obs pm false).2
        ⟨true, g2, vp2, vq2, b2⟩ obs2 pm2 false).2
      = ⟨false, ⟨obs2.eef_pos, obs2.eef_rot⟩, ⟨vp2, vq2⟩⟩ :=
  ⟨rfl, rfl⟩

/-- **C5.** With `disable_rot = true` in the configuration and control
enabled, the returned target orientation is the captured robot origin
orientation — the one already held when the reference frame was captured
earlier (`init_ref = false`), or the one captured from the current
observation on an activating call (`init_ref = true`) — regardless of the
current controller orientation `vq`. -/
theorem get_action_disable_rot {β : Type} (ug : Bool)
    (mask : (ℝ × ℝ) × (ℝ × ℝ) × (ℝ × ℝ)) (ro vo : Pose) (g : Bool)
    (vp : Vec3) (vq : Quat) (b : β) (obs : RobotObs) (pm : Bool) :
    ((get_action ⟨ug, true, mask⟩ ⟨false, ro, vo⟩ ⟨true, g, vp, vq, b⟩
        obs pm false).1).armQuat = some ro.quat
    ∧ ((get_action ⟨ug, true, mask⟩ ⟨true, ro, vo⟩ ⟨true, g, vp, vq, b⟩
        obs pm false).1).armQuat = some obs.eef_rot :=
  ⟨rfl, rfl⟩

/-- **C2.** With control enabled, a captured reference frame and masking
applied, the returned target position is
`robot_origin.pos + mask(pos_gain · (vr_pos − vr_origin.pos))`, an
elementwise affair with no rotation involved; in the spec's scenario
(`vr_origin.pos = 0`, `vr_pos = (0.1, 0, 0)`, all-ones mask) the offset
`(0.05, 0, 0)` is added to the robot origin position. -/
theorem get_action_position {β : Type} (cfg : TeleopConfig) (ro vo : Pose)
    (ug dr : Bool) (voq : Quat) (g : Bool) (vp : Vec3) (vq : Quat) (b : β)
    (obs : RobotObs) :
    ((get_action cfg ⟨false, ro, vo⟩ ⟨true, g, vp, vq, b⟩ obs true false).1).armPos
      = some (Vec3.add ro.pos
          (applyMask cfg.position_mask (Vec3.smul pos_action_gain (Vec3.sub vp vo.pos))))
    ∧ ((get_action ⟨ug, dr, ((1, 1), (1, 1), (1, 1))⟩
          ⟨false, ro, ⟨⟨0, 0, 0⟩, voq⟩⟩ ⟨true, g, ⟨0.1, 0, 0⟩, vq, b⟩
          obs true false).1).armPos
      = some (Vec3.add ro.pos ⟨0.05, 0, 0⟩) := by
  constructor
  · show some (Vec3.add (applyMask _ _) ro.pos) = _
    simp [Vec3.add, add_comm]
  · show some (Vec3.add (applyMask _ _) ro.pos) = _
    norm_num [applyMask, maskDim, Vec3.add, Vec3.sub, Vec3.smul, pos_action_gain, add_comm]

/-- **C4.** With control enabled, a captured reference frame and the current
controller position equal to the captured controller origin position, the
returned target position is exactly the captured robot origin position:
the zero offset is scaled to zero, takes the negative-scale branch of the
mask (`0 > 0` fails) and still adds nothing. -/
theorem get_action_zero_offset {β : Type} (cfg : TeleopConfig) (ro : Pose)
    (vop : Vec3) (voq : Quat) (g : Bool) (vq : Quat) (b : β) (obs : RobotObs) :
    ((get_action cfg ⟨false, ro, ⟨vop, voq⟩⟩ ⟨true, g, vop, vq, b⟩
        obs true false).1).armPos = some ro.pos := by
  show some (Vec3.add (applyMask _ _) ro.pos) = _
  norm_num [applyMask, maskDim, Vec3.add, Vec3.sub, Vec3.smul]

/-- **C6.** When position masking is applied, each axis is treated
independently: a strictly positive scaled offset component is multiplied by
the axis's first mask entry (positive scale), any other component —
including exactly zero — by its second entry (negative scale). -/
theorem get_action_mask_branch {β : Type} (cfg : TeleopConfig) (ro vo : Pose)
    (g : Bool) (vp : Vec3) (vq : Quat) (b : β) (obs : RobotObs) :
    ((get_action cfg ⟨false, ro, vo⟩ ⟨true, g, vp, vq, b⟩ obs true false).1).armPos
      = some (Vec3.add
          ⟨if pos_action_gain * (vp.x - vo.pos.x) > 0
              then pos_action_gain * (vp.x - vo.pos.x) * cfg.position_mask.1.1
              else pos_action_gain * (vp.x - vo.pos.x) * cfg.position_mask.1.2,
            if pos_action_gain * (vp.y - vo.pos.y) > 0
              then pos_action_gain * (vp.y - vo.pos.y) * cfg.position_mask.2.1.1
              else pos_action_gain * (vp.y - vo.pos.y) * cfg.position_mask.2.1.2,
            if pos_action_gain * (vp.z - vo.pos.z) > 0
              then pos_action_gain * (vp.z - vo.pos.z) * cfg.position_mask.2.2.1
              else pos_action_gain * (vp.z - vo.pos.z) * cfg.position_mask.2.2.2⟩
          ro.pos) :=
  rfl

/-! ## Identity-rotation evaluations -/

/-- `atan2` of a zero ordinate over a positive abscissa is zero. -/
theorem atan2_zero_of_pos {x : ℝ} (hx : 0 < x) : atan2 0 x = 0 := by
  simp only [atan2, Complex.ofReal_zero, zero_mul, add_zero]
  exact Complex.arg_ofReal_of_nonneg hx.le

/-- The Euler angles of the identity rotation are zero. -/
theorem quat_to_euler_one : quat_to_euler Quat.one = (0, 0, 0) := by
  have h := atan2_zero_of_pos (x := 1) one_pos
  norm_num [quat_to_euler, Quat.one, h, Real.arcsin_zero]

/-- The zero Euler triple maps to the identity quaternion. -/
theorem euler_to_quat_zero : euler_to_quat (0, 0, 0) = Quat.one := by
  rw [euler_to_quat_eq]
  norm_num [Quat.one, Quat.mk.injEq]

/-- Restatement of `euler_to_quat_zero` for the zero of the product type. -/
theorem euler_to_quat_zero' : euler_to_quat (0 : ℝ × ℝ × ℝ) = Quat.one :=
  euler_to_quat_zero

/-- A pure middle-angle Euler triple maps to a rotation about the y-axis. -/
theorem euler_to_quat_y (θ : ℝ) :
    euler_to_quat (0, θ, 0) = ⟨0, sin (θ/2), 0, cos (θ/2)⟩ := by
  rw [euler_to_quat_eq]
  norm_num [Quat.mk.injEq]

/-- **C10.** On an activating call (`init_ref = true`, control enabled) the
reference frame captured in that same call makes both deltas zero, so —
whatever the configuration, masking option and controller pose — the
returned action is exactly the currently observed end-effector pose. -/
theorem get_action_first_capture {β : Type} (cfg : TeleopConfig) (ro vo : Pose)
    (g : Bool) (vp : Vec3) (vq : Quat) (b : β) (obs : RobotObs) (pm : Bool)
    (hvq : vq.normSq = 1) :
    ((get_action cfg ⟨true, ro, vo⟩ ⟨true, g, vp, vq, b⟩ obs pm false).1).armPos
      = some obs.eef_pos
    ∧ ((get_action cfg ⟨true, ro, vo⟩ ⟨true, g, vp, vq, b⟩ obs pm false).1).armQuat
      = some obs.eef_rot := by
  constructor <;>
    simp [get_action, quat_diff_self vq hvq, quat_to_euler_one, euler_to_quat_zero,
      euler_to_quat_zero', quat_add, Quat.mul_one, TeleopResult.armPos,
      TeleopResult.armQuat, Vec3.sub, Vec3.smul, Vec3.add, applyMask, maskDim]

/-- Witness for C10 at a concrete unit controller quaternion and distinct
concrete robot observation. -/
theorem get_action_first_capture_witness :
    (⟨0, 0, 0, 1⟩ : Quat).normSq = 1 ∧
    (((get_action ⟨false, false, ((1, 1), (1, 1), (1, 1))⟩
          ⟨true, ⟨⟨0, 0, 0⟩, ⟨0, 0, 0, 1⟩⟩, ⟨⟨0, 0, 0⟩, ⟨0, 0, 0, 1⟩⟩⟩
          ⟨true, false, ⟨1, 2, 3⟩, ⟨0, 0, 0, 1⟩, (0 : ℕ)⟩
          ⟨⟨4, 5, 6⟩, ⟨3/5, 0, 0, 4/5⟩⟩ true false).1).armPos = some ⟨4, 5, 6⟩
      ∧ ((get_action ⟨false, false, ((1, 1), (1, 1), (1, 1))⟩
          ⟨true, ⟨⟨0, 0, 0⟩, ⟨0, 0, 0, 1⟩⟩, ⟨⟨0, 0, 0⟩, ⟨0, 0, 0, 1⟩⟩⟩
          ⟨true, false, ⟨1, 2, 3⟩, ⟨0, 0, 0, 1⟩, (0 : ℕ)⟩
          ⟨⟨4, 5, 6⟩, ⟨3/5, 0, 0, 4/5⟩⟩ true false).1).armQuat
          = some ⟨3/5, 0, 0, 4/5⟩) :=
  ⟨by norm_num [Quat.normSq],
    get_action_first_capture _ _ _ _ _ _ _ _ _ (by norm_num [Quat.normSq])⟩

/-! ## Orientation composition order (C1) -/

/-- **C1 (amended).** With control enabled, a captured reference frame and
rotation not disabled, the returned target orientation is the robot origin
orientation composed with the scaled relative controller rotation, with the
origin on the left: `robot_origin.quat ∘ scaledRotation`
(`quat_add(robot_origin.quat, scaledRotation)`), not the other order. -/
theorem get_action_orientation {β : Type} (ug : Bool)
    (mask : (ℝ × ℝ) × (ℝ × ℝ) × (ℝ × ℝ)) (ro vo : Pose) (g : Bool)
    (vp : Vec3) (vq : Quat) (b : β) (obs : RobotObs) (pm : Bool) :
    ((get_action ⟨ug, false, mask⟩ ⟨false, ro, vo⟩ ⟨true, g, vp, vq, b⟩
        obs pm false).1).armQuat
      = some (quat_add ro.quat (euler_to_quat
          (rot_action_gain * (quat_to_euler (quat_diff vq vo.quat)).1,
           rot_action_gain * (quat_to_euler (quat_diff vq vo.quat)).2.1,
           rot_action_gain * (quat_to_euler (quat_diff vq vo.quat)).2.2))) :=
  rfl

/-- The scaled relative controller rotation (spec steps 4–6) at the
counterexample input: controller origin orientation is the identity and the
current controller orientation is a rotation by `π/3` about the y-axis. -/
noncomputable def cexScaledRotation : Quat :=
  euler_to_quat
    (rot_action_gain * (quat_to_euler (quat_diff ⟨0, 1/2, 0, Real.sqrt 3 / 2⟩ ⟨0, 0, 0, 1⟩)).1,
     rot_action_gain * (quat_to_euler (quat_diff ⟨0, 1/2, 0, Real.sqrt 3 / 2⟩ ⟨0, 0, 0, 1⟩)).2.1,
     rot_action_gain * (quat_to_euler (quat_diff ⟨0, 1/2, 0, Real.sqrt 3 / 2⟩ ⟨0, 0, 0, 1⟩)).2.2)

/-- `arcsin (√3 / 2) = π / 3`. -/
theorem arcsin_sqrt_three_div_two : arcsin (Real.sqrt 3 / 2) = π / 3 := by
  rw [← Real.sin_pi_div_three]
  exact arcsin_sin (by linarith [pi_pos]) (by linarith [pi_pos])

/-- Euler angles of the rotation by `π/3` about the y-axis. -/
theorem quat_to_euler_cex :
    quat_to_euler ⟨0, 1/2, 0, Real.sqrt 3 / 2⟩ = (0, π/3, 0) := by
  show (atan2 (2 * (Real.sqrt 3 / 2 * 0 + 1/2 * 0)) (1 - 2 * (0 ^ 2 + (1/2) ^ 2)),
        arcsin (2 * (Real.sqrt 3 / 2 * (1/2) - 0 * 0)),
        atan2 (2 * (Real.sqrt 3 / 2 * 0 + 0 * (1/2))) (1 - 2 * ((1/2) ^ 2 + 0 ^ 2)))
      = ((0 : ℝ), π/3, (0 : ℝ))
  rw [show (2:ℝ) * (Real.sqrt 3 / 2 * 0 + 1/2 * 0) = 0 by ring,
    show (1:ℝ) - 2 * (0 ^ 2 + (1/2) ^ 2) = 1/2 by norm_num,
    show (2:ℝ) * (Real.sqrt 3 / 2 * (1/2) - 0 * 0) = Real.sqrt 3 / 2 by ring,
    show (2:ℝ) * (Real.sqrt 3 / 2 * 0 + 0 * (1/2)) = 0 by ring,
    show (1:ℝ) - 2 * ((1/2) ^ 2 + 0 ^ 2) = 1/2 by norm_num,
    atan2_zero_of_pos (by norm_num : (0:ℝ) < 1/2), arcsin_sqrt_three_div_two]

/-- The scaled relative rotation of the counterexample is the rotation by
`π/15` about the y-axis. -/
theorem cexScaledRotation_eq :
    cexScaledRotation = ⟨0, sin (π/30), 0, cos (π/30)⟩ := by
  have hdiff : quat_diff ⟨0, 1/2, 0, Real.sqrt 3 / 2⟩ (⟨0, 0, 0, 1⟩ : Quat)
      = ⟨0, 1/2, 0, Real.sqrt 3 / 2⟩ := by
    norm_num [quat_diff, Quat.conj, Quat.mul, Quat.mk.injEq]
  unfold cexScaledRotation
  rw [hdiff, quat_to_euler_cex]
  simp only [mul_zero]
  rw [euler_to_quat_y, show rot_action_gain * (π/3) / 2 = π/30 by
    unfold rot_action_gain; ring]

/-- **C1 counterexample.** At a concrete input with captured reference
frame, rotation enabled, robot origin orientation a rotation about x and
controller rotated by `π/3` about y, the call returns
`robot_origin.quat ∘ scaledRotation`, and that quaternion does not
represent the same rotation as the claim's
`scaledRotation ∘ robot_origin.quat`. -/
theorem get_action_orientation_counterexample :
    ((get_action ⟨false, false, ((1, 1), (1, 1), (1, 1))⟩
        ⟨false, ⟨⟨0, 0, 0⟩, ⟨3/5, 0, 0, 4/5⟩⟩, ⟨⟨0, 0, 0⟩, ⟨0, 0, 0, 1⟩⟩⟩
        ⟨true, false, ⟨0, 0, 0⟩, ⟨0, 1/2, 0, Real.sqrt 3 / 2⟩, (0 : ℕ)⟩
        ⟨⟨0, 0, 0⟩, ⟨0, 0, 0, 1⟩⟩ true false).1).armQuat
      = some (quat_add ⟨3/5, 0, 0, 4/5⟩ cexScaledRotation)
    ∧ ¬ sameRotation (quat_add ⟨3/5, 0, 0, 4/5⟩ cexScaledRotation)
        (quat_add cexScaledRotation ⟨3/5, 0, 0, 4/5⟩) := by
  have hsy : 0 < sin (π/30) :=
    sin_pos_of_pos_of_lt_pi (by positivity) (by linarith [pi_pos])
  have hcy : 0 < cos (π/30) :=
    cos_pos_of_mem_Ioo ⟨by linarith [pi_pos], by linarith [pi_pos]⟩
  constructor
  · rfl
  · rw [cexScaledRotation_eq]
    have hcode : quat_add ⟨3/5, 0, 0, 4/5⟩ (⟨0, sin (π/30), 0, cos (π/30)⟩ : Quat)
        = ⟨3/5 * cos (π/30), 4/5 * sin (π/30), 3/5 * sin (π/30), 4/5 * cos (π/30)⟩ := by
      simp only [quat_add, Quat.mul, Quat.mk.injEq]
      refine ⟨by ring, by ring, by ring, by ring⟩
    have hspec : quat_add ⟨0, sin (π/30), 0, cos (π/30)⟩ (⟨3/5, 0, 0, 4/5⟩ : Quat)
        = ⟨3/5 * cos (π/30), 4/5 * sin (π/30), -(3/5) * sin (π/30), 4/5 * cos (π/30)⟩ := by
      simp only [quat_add, Quat.mul, Quat.mk.injEq]
      refine ⟨by ring, by ring, by ring, by ring⟩
    rw [hcode, hspec]
    rintro (h | h)
    · have hz := congrArg Quat.z h
      simp only at hz
      linarith
    · have hw := congrArg Quat.w h
      simp only [Quat.neg] at hw
      linarith

/-! ## Interrupt handling -/

/-- **C9 (amended).** If a user-initiated interrupt occurs during the
computation, `get_action` aborts and returns a bare null result without
raising further — and this bare null is distinct from the
`(None, None, buttons)` sentinel of the control-disabled path; no other
error path is handled. -/
theorem get_action_interrupted {β : Type} (cfg : TeleopConfig) (s : AgentState)
    (inp : ControllerInput β) (obs : RobotObs) (pm : Bool) :
    (get_action cfg s inp obs pm true).1 = TeleopResult.interrupted
    ∧ ∀ b : β, (TeleopResult.interrupted : TeleopResult β) ≠ TeleopResult.noAction b :=
  ⟨rfl, fun _ h => nomatch h⟩

/-- Witness for the amended C9 at a concrete input and buttons value. -/
theorem get_action_interrupted_witness :
    (get_action ⟨false, false, ((1, 1), (1, 1), (1, 1))⟩
        ⟨false, ⟨⟨0, 0, 0⟩, ⟨0, 0, 0, 1⟩⟩, ⟨⟨0, 0, 0⟩, ⟨0, 0, 0, 1⟩⟩⟩
        ⟨true, true, ⟨1, 0, 0⟩, ⟨0, 0, 0, 1⟩, (7 : ℕ)⟩
        ⟨⟨0, 0, 0⟩, ⟨0, 0, 0, 1⟩⟩ false true).1 = TeleopResult.interrupted
    ∧ (TeleopResult.interrupted : TeleopResult ℕ) ≠ TeleopResult.noAction 7 :=
  ⟨(get_action_interrupted ⟨false, false, ((1, 1), (1, 1), (1, 1))⟩
      ⟨false, ⟨⟨0, 0, 0⟩, ⟨0, 0, 0, 1⟩⟩, ⟨⟨0, 0, 0⟩, ⟨0, 0, 0, 1⟩⟩⟩
      ⟨true, true, ⟨1, 0, 0⟩, ⟨0, 0, 0, 1⟩, (7 : ℕ)⟩
      ⟨⟨0, 0, 0⟩, ⟨0, 0, 0, 1⟩⟩ false).1,
   (get_action_interrupted ⟨false, false, ((1, 1), (1, 1), (1, 1))⟩
      ⟨false, ⟨⟨0, 0, 0⟩, ⟨0, 0, 0, 1⟩⟩, ⟨⟨0, 0, 0⟩, ⟨0, 0, 0, 1⟩⟩⟩
      ⟨true, true, ⟨1, 0, 0⟩, ⟨0, 0, 0, 1⟩, (7 : ℕ)⟩
      ⟨⟨0, 0, 0⟩, ⟨0, 0, 0, 1⟩⟩ false).2 7⟩

/-- **C9 counterexample.** At a concrete input, the interrupted call
returns the bare null result, while the disabled path at the same state
returns `(None, None, buttons)`; the two sentinels differ, so the
interrupted return value is not "the same null-action-with-buttons result
returned when control is disabled". -/
theorem get_action_interrupted_counterexample :
    (get_action ⟨false, false, ((1, 1), (1, 1), (1, 1))⟩
        ⟨true, ⟨⟨0, 0, 0⟩, ⟨0, 0, 0, 1⟩⟩, ⟨⟨0, 0, 0⟩, ⟨0, 0, 0, 1⟩⟩⟩
        ⟨true, false, ⟨0, 0, 0⟩, ⟨0, 0, 0, 1⟩, (0 : ℕ)⟩
        ⟨⟨0, 0, 0⟩, ⟨0, 0, 0, 1⟩⟩ true true).1 = TeleopResult.interrupted
    ∧ (get_action ⟨false, false, ((1, 1), (1, 1), (1, 1))⟩
        ⟨true, ⟨⟨0, 0, 0⟩, ⟨0, 0, 0, 1⟩⟩, ⟨⟨0, 0, 0⟩, ⟨0, 0, 0, 1⟩⟩⟩
        ⟨false, false, ⟨0, 0, 0⟩, ⟨0, 0, 0, 1⟩, (0 : ℕ)⟩
        ⟨⟨0, 0, 0⟩, ⟨0, 0, 0, 1⟩⟩ true false).1 = TeleopResult.noAction 0
    ∧ (TeleopResult.interrupted : TeleopResult ℕ) ≠ TeleopResult.noAction 0 :=
  ⟨rfl, rfl, fun h => nomatch h⟩

end Manimo
